import Mathlib

/-!
Verification of the building-permit wizard (src/app/new-application/page.tsx).

The TypeScript page is shallowly embedded: the zod schema becomes Boolean
validators over `String`, the wizard step logic (`nextStep`,
`getFieldsForStep`) becomes pure functions on a step counter and a draft
record, `localStorage` becomes an association list of string keys and
values, and the submit handler becomes a pure state transformer that is
given the clock value (`Date.now()`), the textual base-36 expansion of
`Math.random()` and the ISO timestamp as explicit inputs.
-/

namespace BuildingPermit

/-! ### JavaScript string primitives

`String.prototype.includes`, `toLowerCase`, `toUpperCase` and `trim` are
modelled on the character list of the string (ASCII case mapping, which is
all the schema's literals need). -/

/-- Does the second list start with the first one? -/
def lstartsWith : List Char → List Char → Bool
  | [], _ => true
  | _ :: _, [] => false
  | p :: ps, c :: cs => p == c && lstartsWith ps cs

/-- Model of `hay.includes(needle)` on character lists: some suffix of `hay` starts
with `needle`. -/
def lcontains (needle : List Char) : List Char → Bool
  | [] => lstartsWith needle []
  | c :: cs => lstartsWith needle (c :: cs) || lcontains needle cs

/-- Model of `hay.includes(needle)` for strings. -/
def jsIncludes (hay needle : String) : Bool := lcontains needle.data hay.data

/-- Model of `s.toLowerCase()` (ASCII). -/
def toLowerCase (s : String) : String := ⟨s.data.map Char.toLower⟩

/-- Model of `s.trim()`: strip leading and trailing whitespace. -/
def trimValue (s : String) : String :=
  ⟨((s.data.dropWhile Char.isWhitespace).reverse.dropWhile Char.isWhitespace).reverse⟩

/-! ### The zod schema `buildingPermitSchema`

Each field refines to a Boolean validator; zod's `.min(n)`/`.max(n)` on
strings are length bounds, `.refine` is the given predicate. -/

/-- Rule `applicantName: z.string().min(2).max(100)`. -/
def validApplicantName (s : String) : Bool :=
  2 ≤ s.length && s.length ≤ 100

/-- The `.refine` on `propertyAddress`:
`val.toLowerCase().includes("pa") || val.toLowerCase().includes("pennsylvania")`. -/
def paRefine (val : String) : Bool :=
  jsIncludes (toLowerCase val) "pa" || jsIncludes (toLowerCase val) "pennsylvania"

/-- Rule `propertyAddress: z.string().min(10).max(200).refine(paRefine)`. -/
def validPropertyAddress (s : String) : Bool :=
  10 ≤ s.length && s.length ≤ 200 && paRefine s

/-- Rule `projectType: z.string().min(1)`. -/
def validProjectType (s : String) : Bool :=
  1 ≤ s.length

/-- Rule `projectDescription: z.string().min(10).max(1000)`. -/
def validProjectDescription (s : String) : Bool :=
  10 ≤ s.length && s.length ≤ 1000

/-- Modelled from the spec: `coerceNumberOrFail` is imported from
`@/lib/utils`, which is not part of this repository snapshot.  Per the spec
(§3, §4.1) it coerces the text to a decimal number and fails (throws) when
the text is not numeric.  The model parses an optional sign, an integer
part and an optional fractional part into a rational and returns `none` on
malformed input. -/
def coerceNumberOrFail (s : String) : Option Rat :=
  let signed : Bool × List Char :=
    match s.data with
    | '-' :: rest => (true, rest)
    | '+' :: rest => (false, rest)
    | l => (false, l)
  let ip := signed.2.takeWhile Char.isDigit
  let rest := signed.2.dropWhile Char.isDigit
  let digitsToNat : List Char → Nat :=
    fun l => l.foldl (fun a c => a * 10 + (c.toNat - '0'.toNat)) 0
  let build : Nat → Nat → Rat :=
    fun num den => if signed.1 then -(mkRat num den) else mkRat num den
  match rest with
  | [] => if ip.isEmpty then none else some (build (digitsToNat ip) 1)
  | '.' :: frac =>
    if frac.all Char.isDigit && !(ip.isEmpty && frac.isEmpty) then
      some (build (digitsToNat ip * 10 ^ frac.length + digitsToNat frac) (10 ^ frac.length))
    else none
  | _ => none

/-- Modelled from the spec: `isPositiveNumber` from `@/lib/utils` (not in
this snapshot) holds exactly for strictly positive numbers. -/
def isPositiveNumber (q : Rat) : Bool := decide (0 < q)

/-- Rule `estimatedCost: z.string().refine(...)`: coerce, test positivity, and
turn a coercion exception into a plain `false` (the `catch` branch). -/
def validEstimatedCost (s : String) : Bool :=
  match coerceNumberOrFail s with
  | some num => isPositiveNumber num
  | none => false

/-- The regex test `/^[A-Za-z0-9]+$/.test(t)`: nonempty and every
character an ASCII letter or digit. -/
def alnumTest (t : String) : Bool :=
  !t.data.isEmpty && t.data.all (fun c => c.isAlpha || c.isDigit)

/-- Rule `contractorLicense: z.string().optional().refine(...)`: blank (empty or
whitespace-only) passes; otherwise the trimmed value must pass the
alphanumeric regex.  The form always supplies a string, so the `!val`
branch is the empty string. -/
def validContractorLicense (val : String) : Bool :=
  if trimValue val = "" then true else alnumTest (trimValue val)

/-! ### Form data -/

/-- The form record (`BuildingPermitForm`): the six text fields. -/
structure Draft where
  applicantName : String
  propertyAddress : String
  projectType : String
  projectDescription : String
  estimatedCost : String
  contractorLicense : String
deriving DecidableEq, Repr

/-- The `defaultValues` passed to `useForm`: every field is the empty string. -/
def defaultValues : Draft :=
  { applicantName := ""
    propertyAddress := ""
    projectType := ""
    projectDescription := ""
    estimatedCost := ""
    contractorLicense := "" }

/-- The field names, `keyof BuildingPermitForm`. -/
inductive FieldName where
  | applicantName
  | propertyAddress
  | projectType
  | projectDescription
  | estimatedCost
  | contractorLicense
deriving DecidableEq, Repr

/-- The schema rule for one field applied to the current values. -/
def validField (d : Draft) : FieldName → Bool
  | .applicantName => validApplicantName d.applicantName
  | .propertyAddress => validPropertyAddress d.propertyAddress
  | .projectType => validProjectType d.projectType
  | .projectDescription => validProjectDescription d.projectDescription
  | .estimatedCost => validEstimatedCost d.estimatedCost
  | .contractorLicense => validContractorLicense d.contractorLicense

/-- All six field names, in schema order. -/
def allFields : List FieldName :=
  [.applicantName, .propertyAddress, .projectType, .projectDescription,
   .estimatedCost, .contractorLicense]

/-- Model of `form.trigger(fields)`: every named field passes its rule. -/
def trigger (d : Draft) (fields : List FieldName) : Bool :=
  fields.all (validField d)

/-- The resolver `zodResolver(buildingPermitSchema)` applied to the whole record, as run
by `form.handleSubmit` and `formState.isValid`. -/
def validateAll (d : Draft) : Bool :=
  trigger d allFields

/-- The `PROJECT_TYPES` list. -/
def PROJECT_TYPES : List String :=
  ["New Construction - Residential",
   "New Construction - Commercial",
   "Addition - Residential",
   "Addition - Commercial",
   "Renovation - Interior",
   "Renovation - Exterior",
   "Deck/Patio Construction",
   "Garage Construction",
   "Shed Construction",
   "Pool Installation",
   "Electrical Work",
   "HVAC Installation",
   "Plumbing Work",
   "Roofing Work",
   "Demolition",
   "Other"]

/-- The `FORM_STEPS` list (id, title, description). -/
def FORM_STEPS : List (Nat × String × String) :=
  [(1, "Applicant Information", "Basic applicant details"),
   (2, "Property & Project", "Property and project information"),
   (3, "Cost & Contractor", "Financial and contractor details"),
   (4, "Review & Submit", "Review your application")]

/-- The function `getFieldsForStep`. -/
def getFieldsForStep : Nat → List FieldName
  | 1 => [.applicantName]
  | 2 => [.propertyAddress, .projectType, .projectDescription]
  | 3 => [.estimatedCost, .contractorLicense]
  | _ => []

/-- The function `nextStep`: validate the current step's fields; on success
`setCurrentStep(prev => Math.min(prev + 1, FORM_STEPS.length))`, otherwise
the step is unchanged (only a toast is shown). -/
def nextStep (currentStep : Nat) (d : Draft) : Nat :=
  if trigger d (getFieldsForStep currentStep) then
    min (currentStep + 1) FORM_STEPS.length
  else
    currentStep

/-! ### localStorage

Modelled as an association list; `setItem` shadows, `getItem` returns the
first binding, `removeItem` deletes every binding of the key. -/

/-- The browser key-value store. -/
def Store : Type := List (String × String)

/-- The empty store. -/
def emptyStore : Store := []

/-- Model of `localStorage.getItem(k)`. -/
def getItem : Store → String → Option String
  | [], _ => none
  | (k2, v) :: rest, k => if k2 = k then some v else getItem rest k

/-- Model of `localStorage.setItem(k, v)`. -/
def setItem (st : Store) (k v : String) : Store := (k, v) :: st

/-- Model of `localStorage.removeItem(k)`. -/
def removeItem (st : Store) (k : String) : Store :=
  st.filter (fun p => p.1 != k)

/-- The fixed draft key `"buildingPermitDraft"`. -/
def draftKey : String := "buildingPermitDraft"

/-! ### JSON serialization of the form record

`JSON.stringify` on the flat six-string record emits the object literal in
property order with string escaping; `JSON.parse` inverts it.  The model
escapes the two characters that occur escaped in such output (`"` and
`\`); the decoder accepts exactly the serialized shape and returns `none`
on anything else (the `catch` around `JSON.parse`). -/

/-- Escape one character for a JSON string literal. -/
def escapeChar (c : Char) : List Char :=
  if c = '"' || c = '\\' then ['\\', c] else [c]

/-- Escape a whole character list. -/
def escapeList : List Char → List Char
  | [] => []
  | c :: cs => escapeChar c ++ escapeList cs

/-- A JSON string literal: quote, escaped content, quote. -/
def quoteJson (s : String) : String :=
  ⟨'"' :: (escapeList s.data ++ ['"'])⟩

/-- Consume an expected literal prefix. -/
def dropLit : List Char → List Char → Option (List Char)
  | [], l => some l
  | _ :: _, [] => none
  | p :: ps, c :: cs => if p = c then dropLit ps cs else none

/-- Consume the body of a JSON string literal up to its closing quote,
undoing escapes; returns the content and the remainder. -/
def parseEscaped : List Char → Option (List Char × List Char)
  | [] => none
  | c :: rest =>
    if c = '\\' then
      match rest with
      | [] => none
      | d :: rest2 =>
        match parseEscaped rest2 with
        | some (s, r) => some (d :: s, r)
        | none => none
    else if c = '"' then some ([], rest)
    else
      match parseEscaped rest with
      | some (s, r) => some (c :: s, r)
      | none => none

/-- Consume a full JSON string literal, opening quote included. -/
def parseQuoted : List Char → Option (List Char × List Char)
  | '"' :: rest => parseEscaped rest
  | _ => none

/-- Consume a literal key fragment followed by a JSON string value. -/
def parseField (lit : List Char) (l : List Char) : Option (List Char × List Char) :=
  (dropLit lit l).bind parseQuoted

/-- The key fragments of the serialized record, in property order. -/
def litApplicantName : String := "\x7b\"applicantName\":"
def litPropertyAddress : String := ",\"propertyAddress\":"
def litProjectType : String := ",\"projectType\":"
def litProjectDescription : String := ",\"projectDescription\":"
def litEstimatedCost : String := ",\"estimatedCost\":"
def litContractorLicense : String := ",\"contractorLicense\":"
def litClose : String := "\x7d"

/-- Model of `JSON.stringify(values)` for the form record. -/
def encodeDraft (d : Draft) : String :=
  litApplicantName ++ quoteJson d.applicantName ++
  litPropertyAddress ++ quoteJson d.propertyAddress ++
  litProjectType ++ quoteJson d.projectType ++
  litProjectDescription ++ quoteJson d.projectDescription ++
  litEstimatedCost ++ quoteJson d.estimatedCost ++
  litContractorLicense ++ quoteJson d.contractorLicense ++
  litClose

/-- Model of `JSON.parse` of a stored draft, restricted to the serialized record
shape; any other text is a parse failure (`none`). -/
def decodeDraft (s : String) : Option Draft :=
  (parseField litApplicantName.data s.data).bind fun p1 =>
  (parseField litPropertyAddress.data p1.2).bind fun p2 =>
  (parseField litProjectType.data p2.2).bind fun p3 =>
  (parseField litProjectDescription.data p3.2).bind fun p4 =>
  (parseField litEstimatedCost.data p4.2).bind fun p5 =>
  (parseField litContractorLicense.data p5.2).bind fun p6 =>
  (dropLit litClose.data p6.2).bind fun l7 =>
  if l7.isEmpty then
    some { applicantName := ⟨p1.1⟩
           propertyAddress := ⟨p2.1⟩
           projectType := ⟨p3.1⟩
           projectDescription := ⟨p4.1⟩
           estimatedCost := ⟨p5.1⟩
           contractorLicense := ⟨p6.1⟩ }
  else none

/-- The autosave effect: `localStorage.setItem("buildingPermitDraft",
JSON.stringify(watchedValues))`. -/
def saveDraft (store : Store) (values : Draft) : Store :=
  setItem store draftKey (encodeDraft values)

/-- The load effect: read the draft key and `JSON.parse` it; a missing key
or a parse error (the `catch` branch) yields `none`. -/
def loadDraft (store : Store) : Option Draft :=
  match getItem store draftKey with
  | none => none
  | some savedData => decodeDraft savedData

/-- The form values after the load effect ran: `form.reset(parsedData)` on
success, otherwise the defaults stay. -/
def restoredForm (store : Store) : Draft :=
  match loadDraft store with
  | some parsedData => parsedData
  | none => defaultValues

/-! ### Submission -/

/-- The first nine fractional base-36 digits of the random value,
uppercased: `Math.random().toString(36).substr(2, 9).toUpperCase()`, taking
the textual expansion produced by `toString(36)` as input. -/
def randomSuffix (randomText : String) : List Char :=
  ((randomText.data.drop 2).take 9).map Char.toUpper

/-- The identifier template, `PA-` then `Date.now()` then a dash then
`Math.random().toString(36).substr(2, 9).toUpperCase()`,
with the clock value and the random expansion as inputs. -/
def generateApplicationId (now : Nat) (randomText : String) : String :=
  "PA-" ++ Nat.repr now ++ "-" ++ ⟨randomSuffix randomText⟩

/-- The submitted record: the six form fields plus identifier, timestamp
and status. -/
structure SubmittedApplication where
  applicantName : String
  propertyAddress : String
  projectType : String
  projectDescription : String
  estimatedCost : String
  contractorLicense : String
  applicationId : String
  submittedAt : String
  status : String
deriving DecidableEq, Repr

/-- Model of `JSON.stringify(applicationData)` for the submitted record. -/
def encodeApplication (a : SubmittedApplication) : String :=
  litApplicantName ++ quoteJson a.applicantName ++
  litPropertyAddress ++ quoteJson a.propertyAddress ++
  litProjectType ++ quoteJson a.projectType ++
  litProjectDescription ++ quoteJson a.projectDescription ++
  litEstimatedCost ++ quoteJson a.estimatedCost ++
  litContractorLicense ++ quoteJson a.contractorLicense ++
  ",\"applicationId\":" ++ quoteJson a.applicationId ++
  ",\"submittedAt\":" ++ quoteJson a.submittedAt ++
  ",\"status\":" ++ quoteJson a.status ++
  litClose

/-- The body of `onSubmit(data)`: build the id and the record, store the
record under `"application_" + applicationId`, remove the draft key, reset
the form to defaults and the step to 1.  Returns the produced record with
the new store, form values and step. -/
def onSubmit (data : Draft) (store : Store) (now : Nat) (randomText : String)
    (nowIso : String) : SubmittedApplication × Store × Draft × Nat :=
  let applicationId := generateApplicationId now randomText
  let applicationData : SubmittedApplication :=
    { applicantName := data.applicantName
      propertyAddress := data.propertyAddress
      projectType := data.projectType
      projectDescription := data.projectDescription
      estimatedCost := data.estimatedCost
      contractorLicense := data.contractorLicense
      applicationId := applicationId
      submittedAt := nowIso
      status := "Submitted" }
  let store1 := setItem store ("application_" ++ applicationId) (encodeApplication applicationData)
  let store2 := removeItem store1 draftKey
  (applicationData, store2, defaultValues, 1)

/-- The submit pipeline: the submit button is rendered only on the last
step and is disabled unless `formState.isValid`, and `form.handleSubmit`
re-runs the resolver before calling `onSubmit`; otherwise nothing
happens. -/
def handleSubmit (currentStep : Nat) (data : Draft) (store : Store) (now : Nat)
    (randomText : String) (nowIso : String) :
    Option SubmittedApplication × Store × Draft × Nat :=
  if currentStep = FORM_STEPS.length ∧ validateAll data = true then
    let r := onSubmit data store now randomText nowIso
    (some r.1, r.2)
  else
    (none, store, data, currentStep)

/-! ### Store lemmas -/

/-- Reading the key just written returns the written value. -/
theorem getItem_setItem_self (st : Store) (k v : String) :
    getItem (setItem st k v) k = some v := by
  simp [getItem, setItem]

/-- Removing a key makes it unreadable. -/
theorem getItem_removeItem_self (st : Store) (k : String) :
    getItem (removeItem st k) k = none := by
  induction st with
  | nil => rfl
  | cons p rest ih =>
    by_cases h : p.1 = k
    · simpa [removeItem, List.filter_cons, h] using ih
    · simpa [removeItem, List.filter_cons, h, getItem] using ih

/-- Removing one key leaves the others unchanged. -/
theorem getItem_removeItem_ne (st : Store) (k k2 : String) (h : k ≠ k2) :
    getItem (removeItem st k2) k = getItem st k := by
  induction st with
  | nil => rfl
  | cons p rest ih =>
    have h' : k2 ≠ k := Ne.symm h
    by_cases h1 : p.1 = k2
    · simpa [removeItem, List.filter_cons, h1, getItem, h, h'] using ih
    · by_cases h2 : p.1 = k
      · simp [removeItem, List.filter_cons, h1, getItem, h2, h, h']
      · simpa [removeItem, List.filter_cons, h1, getItem, h2, h, h'] using ih

/-! ### Serialization round trip -/

/-- Dropping a literal prefix from itself-plus-rest yields the rest. -/
theorem dropLit_append (p l : List Char) : dropLit p (p ++ l) = some l := by
  induction p with
  | nil => rfl
  | cons c cs ih => simp [dropLit, ih]

/-- Parsing an escaped body followed by the closing quote recovers the
original characters and the remainder. -/
theorem parseEscaped_round (s rest : List Char) :
    parseEscaped (escapeList s ++ '"' :: rest) = some (s, rest) := by
  induction s with
  | nil =>
    rw [show escapeList [] = [] from rfl, List.nil_append, parseEscaped.eq_def]
    simp
  | cons c cs ih =>
    by_cases hesc : c = '"' ∨ c = '\\'
    · have hchar : escapeChar c = ['\\', c] := by
        rcases hesc with h | h <;> simp [escapeChar, h]
      rw [show escapeList (c :: cs) = escapeChar c ++ escapeList cs from rfl, hchar]
      simp only [List.cons_append, List.nil_append]
      rw [parseEscaped.eq_def]
      simp [ih]
    · push_neg at hesc
      have hchar : escapeChar c = [c] := by simp [escapeChar, hesc.1, hesc.2]
      rw [show escapeList (c :: cs) = escapeChar c ++ escapeList cs from rfl, hchar]
      rw [parseEscaped.eq_def]
      simp only [hesc.1, hesc.2, if_false, ih, List.cons_append, List.nil_append]

/-- Parsing a produced JSON string literal recovers the string. -/
theorem parseQuoted_round (s : String) (rest : List Char) :
    parseQuoted ((quoteJson s).data ++ rest) = some (s.data, rest) := by
  simp [quoteJson, parseQuoted, parseEscaped_round]

/-- Parsing a key fragment plus a produced string literal recovers the
field value. -/
theorem parseField_round (lit : String) (s : String) (rest : List Char) :
    parseField lit.data (lit.data ++ ((quoteJson s).data ++ rest)) = some (s.data, rest) := by
  simp [parseField, dropLit_append, parseQuoted_round]

/-- Rebuilding a string from its characters is the identity. -/
theorem string_mk_data (s : String) : String.mk s.data = s := rfl

/-- Dropping a literal from exactly itself leaves nothing. -/
theorem dropLit_self (p : List Char) : dropLit p p = some [] := by
  simpa using dropLit_append p []

/-- Decoding inverts encoding on form records. -/
theorem decodeDraft_encodeDraft (d : Draft) : decodeDraft (encodeDraft d) = some d := by
  obtain ⟨f1, f2, f3, f4, f5, f6⟩ := d
  have hdata : (encodeDraft ⟨f1, f2, f3, f4, f5, f6⟩).data =
      litApplicantName.data ++ ((quoteJson f1).data ++
      (litPropertyAddress.data ++ ((quoteJson f2).data ++
      (litProjectType.data ++ ((quoteJson f3).data ++
      (litProjectDescription.data ++ ((quoteJson f4).data ++
      (litEstimatedCost.data ++ ((quoteJson f5).data ++
      (litContractorLicense.data ++ ((quoteJson f6).data ++
      litClose.data))))))))))) := by
    simp [encodeDraft, String.data_append, List.append_assoc]
  simp [decodeDraft, hdata, parseField_round, dropLit_self, string_mk_data]

/-! ### Claim C8 -/

/-- C8: for every well-formed draft `d` (a record of the six text fields),
`saveDraft d` followed by `loadDraft` yields a draft equal to `d`,
whatever the store held before. -/
theorem saveDraft_loadDraft_round (store : Store) (d : Draft) :
    loadDraft (saveDraft store d) = some d := by
  rw [loadDraft, saveDraft, getItem_setItem_self]
  exact decodeDraft_encodeDraft d

/-! ### Claim C9 -/

/-- C9: when the text stored under the draft key is not a parsable
serialized draft, `loadDraft` returns absent (it is a total function, so
no exception escapes), and the form still holds its default values. -/
theorem loadDraft_corrupt (store : Store) (s : String)
    (hstored : getItem store draftKey = some s)
    (hbad : decodeDraft s = none) :
    loadDraft store = none ∧ restoredForm store = defaultValues := by
  have hload : loadDraft store = none := by rw [loadDraft, hstored]; exact hbad
  exact ⟨hload, by rw [restoredForm, hload]⟩

/-- Witness for C9 at a concrete corrupted store. -/
theorem loadDraft_corrupt_witness :
    loadDraft (setItem emptyStore draftKey "corrupt stuff") = none ∧
    restoredForm (setItem emptyStore draftKey "corrupt stuff") = defaultValues :=
  loadDraft_corrupt (setItem emptyStore draftKey "corrupt stuff") "corrupt stuff"
    (by decide) (by decide)

/-! ### Claim C3 -/

/-- C3 counterexample: the schema accepts the one-character string "x",
which is not one of the 16 `PROJECT_TYPES` labels, so validation does not
require membership in the enumerated set. -/
theorem projectType_not_enumerated :
    validProjectType "x" = true ∧ PROJECT_TYPES.contains "x" = false := by
  decide

/-- C3 amended: `projectType` validation succeeds exactly when the string
is nonempty; the 16 enumerated labels are only the options the select
control offers, and each of them does pass validation. -/
theorem projectType_valid_iff :
    (∀ s : String, validProjectType s = true ↔ 1 ≤ s.length) ∧
    (∀ t ∈ PROJECT_TYPES, validProjectType t = true) := by
  constructor
  · intro s
    simp [validProjectType]
  · intro t ht
    fin_cases ht <;> decide

/-- Witness for the amended C3 at the concrete label "Other". -/
theorem projectType_valid_iff_witness : validProjectType "Other" = true :=
  projectType_valid_iff.2 "Other" (by decide)

/-! ### Claim C4 -/

/-- C4: an address without a case-insensitive "pa" or "pennsylvania"
substring fails validation and makes the whole record invalid regardless
of the other fields; and a passing address must have length between 10 and
200 and contain such a substring. -/
theorem propertyAddress_requires_pa :
    (∀ d : Draft,
      jsIncludes (toLowerCase d.propertyAddress) "pa" = false →
      jsIncludes (toLowerCase d.propertyAddress) "pennsylvania" = false →
      validPropertyAddress d.propertyAddress = false ∧ validateAll d = false) ∧
    (∀ s : String, validPropertyAddress s = true →
      10 ≤ s.length ∧ s.length ≤ 200 ∧
      (jsIncludes (toLowerCase s) "pa" = true ∨
        jsIncludes (toLowerCase s) "pennsylvania" = true)) := by
  constructor
  · intro d h1 h2
    have hfield : validPropertyAddress d.propertyAddress = false := by
      simp [validPropertyAddress, paRefine, h1, h2]
    refine ⟨hfield, ?_⟩
    have hne : validateAll d ≠ true := by
      intro hall
      rw [validateAll, trigger, List.all_eq_true] at hall
      have := hall FieldName.propertyAddress (by simp [allFields])
      rw [validField] at this
      rw [hfield] at this
      exact Bool.false_ne_true this
    exact Bool.eq_false_iff.mpr hne
  · intro s hs
    rw [validPropertyAddress, Bool.and_eq_true, Bool.and_eq_true] at hs
    obtain ⟨⟨hlo, hhi⟩, hpa⟩ := hs
    rw [paRefine, Bool.or_eq_true] at hpa
    exact ⟨by simpa using hlo, by simpa using hhi, hpa⟩

/-- Witness for C4 at the spec's own Ohio address. -/
theorem propertyAddress_requires_pa_witness :
    validPropertyAddress "123 Main Street, Columbus, OH 43215" = false ∧
    validateAll { defaultValues with
      propertyAddress := "123 Main Street, Columbus, OH 43215" } = false :=
  propertyAddress_requires_pa.1
    { defaultValues with propertyAddress := "123 Main Street, Columbus, OH 43215" }
    (by decide) (by decide)

/-! ### Claim C6 -/

/-- C6: `estimatedCost` validation succeeds exactly when the text coerces
to a strictly positive number, and a failed coercion yields a plain
validation failure (the `catch` branch returns `false`; the validator is a
total function, so no exception escapes). -/
theorem estimatedCost_positive_or_fail (s : String) :
    (validEstimatedCost s = true ↔
      ∃ q : Rat, coerceNumberOrFail s = some q ∧ 0 < q) ∧
    (coerceNumberOrFail s = none → validEstimatedCost s = false) := by
  cases h : coerceNumberOrFail s with
  | none => simp [validEstimatedCost, h]
  | some q => simp [validEstimatedCost, h, isPositiveNumber]

/-- Witness for C6: a non-numeric text fails coercion and validation. -/
theorem estimatedCost_positive_or_fail_witness :
    coerceNumberOrFail "abc" = none ∧ validEstimatedCost "abc" = false :=
  ⟨by decide, (estimatedCost_positive_or_fail "abc").2 (by decide)⟩

/-! ### Claim C7 -/

/-- C7 counterexample: the value " A" is present and non-blank and does
not match `^[A-Za-z0-9]+$` (it contains a space), yet validation succeeds,
because the code tests the trimmed value against the pattern. -/
theorem contractorLicense_untrimmed_counterexample :
    validContractorLicense " A" = true ∧
    trimValue " A" ≠ "" ∧
    alnumTest " A" = false := by
  decide

/-- C7 amended: a blank (empty or whitespace-only) `contractorLicense`
passes as absent, and a non-blank one passes exactly when its trimmed form
matches `^[A-Za-z0-9]+$`; in particular whitespace-only values pass. -/
theorem contractorLicense_valid_iff :
    (∀ val : String, validContractorLicense val = true ↔
      (trimValue val = "" ∨ alnumTest (trimValue val) = true)) ∧
    (∀ val : String, val.data.all Char.isWhitespace = true →
      validContractorLicense val = true) := by
  constructor
  · intro val
    by_cases h : trimValue val = "" <;> simp [validContractorLicense, h]
  · intro val hws
    rw [List.all_eq_true] at hws
    have htrim : trimValue val = "" := by
      have hdrop : val.data.dropWhile Char.isWhitespace = [] :=
        List.dropWhile_eq_nil_iff.mpr hws
      rw [trimValue, hdrop]
      rfl
    simp [validContractorLicense, htrim]

/-- Witness for the amended C7 at a whitespace-only value. -/
theorem contractorLicense_valid_iff_witness :
    validContractorLicense "   " = true :=
  contractorLicense_valid_iff.2 "   " (by decide)

/-! ### Claim C10 -/

/-- C10 counterexample: the refinement accepts "Pennsylvania" even though
its lowercase form does not contain the substring "pa" (the only 'p' is
followed by 'e'), so the refinement is not equivalent to the "pa" test
alone and the "pennsylvania" disjunct is not redundant. -/
theorem paRefine_counterexample :
    paRefine "Pennsylvania" = true ∧
    jsIncludes (toLowerCase "Pennsylvania") "pa" = false := by
  decide

/-- C10 amended: the refinement accepts `s` exactly when the lowercase
form of `s` contains "pa" or contains "pennsylvania"; the second disjunct
is not redundant, because "pennsylvania" itself does not contain "pa". -/
theorem paRefine_iff :
    (∀ s : String, paRefine s = true ↔
      (jsIncludes (toLowerCase s) "pa" = true ∨
        jsIncludes (toLowerCase s) "pennsylvania" = true)) ∧
    jsIncludes "pennsylvania" "pa" = false := by
  constructor
  · intro s
    rw [paRefine, Bool.or_eq_true]
  · decide

/-! ### Claim C2 -/

/-- The claim's own enumeration of the required fields per step: step 1
needs `applicantName`; step 2 needs `propertyAddress`, `projectType`,
`projectDescription`; step 3 needs `estimatedCost`, `contractorLicense`;
step 4 needs nothing. -/
def requiredFieldsPass (step : Nat) (d : Draft) : Bool :=
  match step with
  | 1 => validApplicantName d.applicantName
  | 2 => validPropertyAddress d.propertyAddress && validProjectType d.projectType &&
      validProjectDescription d.projectDescription
  | 3 => validEstimatedCost d.estimatedCost && validContractorLicense d.contractorLicense
  | _ => true

/-- The step's field subset validates exactly when the claim's enumerated
conjunction holds. -/
theorem trigger_eq_requiredFieldsPass (step : Nat) (d : Draft) :
    trigger d (getFieldsForStep step) = requiredFieldsPass step d := by
  rcases step with _ | _ | _ | _ | n
  · rfl
  · simp [trigger, getFieldsForStep, requiredFieldsPass, validField]
  · simp [trigger, getFieldsForStep, requiredFieldsPass, validField, Bool.and_assoc]
  · simp [trigger, getFieldsForStep, requiredFieldsPass, validField]
  · rfl

/-- The scenario record of spec §8.8. -/
def scenarioDraft : Draft :=
  { applicantName := "Jane Doe"
    propertyAddress := "100 Main St, Philadelphia, PA 19101"
    projectType := "Deck/Patio Construction"
    projectDescription := "Build a 12x16 wood deck attached to rear of house"
    estimatedCost := "8500"
    contractorLicense := "" }

/-- C2: `nextStep` leaves the step unchanged when any of the current
step's required fields fails validation, and moves to
`min (step + 1) 4` when all of them pass. -/
theorem nextStep_gated (step : Nat) (d : Draft) :
    (requiredFieldsPass step d = false → nextStep step d = step) ∧
    (requiredFieldsPass step d = true → nextStep step d = min (step + 1) 4) := by
  have h := trigger_eq_requiredFieldsPass step d
  constructor
  · intro hf
    rw [nextStep, h, hf]
    simp
  · intro ht
    rw [nextStep, h, ht]
    simp [FORM_STEPS]

/-- Witness for C2: a failing step 3 stays at 3, and a passing step 1
moves to 2. -/
theorem nextStep_gated_witness :
    nextStep 3 defaultValues = 3 ∧ nextStep 1 scenarioDraft = 2 := by
  constructor
  · exact (nextStep_gated 3 defaultValues).1 (by decide)
  · have h := (nextStep_gated 1 scenarioDraft).2 (by decide)
    simpa using h

/-! ### Decimal representation of the clock value

`Date.now()` is interpolated into the identifier as its decimal digit
string; the following development characterizes `Nat.repr` enough to show
that it consists of digit characters and is injective. -/

/-- The decimal digit characters of `n`, most significant first. -/
def natChars (n : Nat) : List Char :=
  if _h : n < 10 then [Nat.digitChar n]
  else natChars (n / 10) ++ [Nat.digitChar (n % 10)]
  termination_by n
  decreasing_by exact Nat.div_lt_self (by omega) (by decide)

/-- Digit characters of values below ten are digits. -/
theorem digitChar_isDigit_fin : ∀ i : Fin 10, (Nat.digitChar i.val).isDigit = true := by
  decide

/-- The map `Nat.digitChar` is injective below ten. -/
theorem digitChar_inj_fin :
    ∀ i j : Fin 10, Nat.digitChar i.val = Nat.digitChar j.val → i = j := by
  decide

/-- A decimal representation is never empty. -/
theorem natChars_ne_nil (n : Nat) : natChars n ≠ [] := by
  rw [natChars.eq_def]
  split <;> simp

/-- Every character of the decimal representation is a digit. -/
theorem natChars_isDigit (n : Nat) : ∀ c ∈ natChars n, c.isDigit = true := by
  induction n using Nat.strong_induction_on with
  | _ n ih =>
    by_cases h : n < 10
    · rw [natChars.eq_def, dif_pos h]
      intro c hc
      rw [List.mem_singleton] at hc
      subst hc
      exact digitChar_isDigit_fin ⟨n, h⟩
    · rw [natChars.eq_def, dif_neg h]
      intro c hc
      rcases List.mem_append.mp hc with hc1 | hc2
      · exact ih (n / 10) (Nat.div_lt_self (by omega) (by decide)) c hc1
      · rw [List.mem_singleton] at hc2
        subst hc2
        exact digitChar_isDigit_fin ⟨n % 10, Nat.mod_lt n (by decide)⟩

/-- The decimal representation is injective. -/
theorem natChars_inj : ∀ a b : Nat, natChars a = natChars b → a = b := by
  intro a
  induction a using Nat.strong_induction_on with
  | _ a ih =>
    intro b h
    by_cases ha : a < 10 <;> by_cases hb : b < 10
    · rw [natChars.eq_def a, dif_pos ha, natChars.eq_def b, dif_pos hb] at h
      simp only [List.cons.injEq, and_true] at h
      have := digitChar_inj_fin ⟨a, ha⟩ ⟨b, hb⟩ h
      simpa using congrArg Fin.val this
    · rcases hB : natChars (b / 10) with _ | ⟨x, xs⟩
      · exact absurd hB (natChars_ne_nil _)
      · rw [natChars.eq_def a, dif_pos ha, natChars.eq_def b, dif_neg hb, hB] at h
        simp at h
    · rcases hA : natChars (a / 10) with _ | ⟨x, xs⟩
      · exact absurd hA (natChars_ne_nil _)
      · rw [natChars.eq_def a, dif_neg ha, hA, natChars.eq_def b, dif_pos hb] at h
        simp at h
    · rw [natChars.eq_def a, dif_neg ha, natChars.eq_def b, dif_neg hb] at h
      obtain ⟨h1, h2⟩ := List.append_inj' h rfl
      simp only [List.cons.injEq, and_true] at h2
      have hdiv : a / 10 = b / 10 :=
        ih (a / 10) (Nat.div_lt_self (by omega) (by decide)) (b / 10) h1
      have hmod := digitChar_inj_fin ⟨a % 10, Nat.mod_lt a (by decide)⟩
        ⟨b % 10, Nat.mod_lt b (by decide)⟩ h2
      have hmod' : a % 10 = b % 10 := by simpa using congrArg Fin.val hmod
      have hda := Nat.div_add_mod a 10
      have hdb := Nat.div_add_mod b 10
      omega

/-- With enough fuel `Nat.toDigitsCore` produces the decimal digits in
front of the accumulator. -/
theorem toDigitsCore_eq_natChars :
    ∀ (fuel n : Nat) (acc : List Char), n < fuel →
      Nat.toDigitsCore 10 fuel n acc = natChars n ++ acc := by
  intro fuel
  induction fuel with
  | zero => intro n acc h; omega
  | succ fuel ih =>
    intro n acc h
    rw [Nat.toDigitsCore]
    by_cases h0 : n / 10 = 0
    · have hn : n < 10 := (Nat.div_eq_zero_iff (by decide)).mp h0
      simp only [h0, if_true]
      rw [natChars.eq_def, dif_pos hn, Nat.mod_eq_of_lt hn]
      simp
    · have hn10 : ¬n < 10 := fun hlt => h0 (Nat.div_eq_of_lt hlt)
      have hdiv : n / 10 < n := Nat.div_lt_self (by omega) (by decide)
      simp only [h0, if_false]
      rw [ih (n / 10) (Nat.digitChar (n % 10) :: acc) (by omega)]
      rw [natChars.eq_def n, dif_neg hn10]
      simp [List.append_assoc]

/-- The characters of `Nat.repr` are the decimal digits. -/
theorem natRepr_data (n : Nat) : (Nat.repr n).data = natChars n := by
  rw [show Nat.repr n = (Nat.toDigits 10 n).asString from rfl,
    show Nat.toDigits 10 n = Nat.toDigitsCore 10 (n + 1) n [] from rfl,
    toDigitsCore_eq_natChars (n + 1) n [] (by omega)]
  simp [List.asString]

/-- The representation `Nat.repr` is injective. -/
theorem natRepr_inj (m n : Nat) (h : Nat.repr m = Nat.repr n) : m = n :=
  natChars_inj m n (by rw [← natRepr_data, ← natRepr_data, h])

/-- The decimal time component never contains a dash. -/
theorem natRepr_no_dash (n : Nat) : '-' ∉ (Nat.repr n).data := by
  rw [natRepr_data]
  intro hmem
  exact absurd (natChars_isDigit n '-' hmem) (by decide)

/-- Splitting at a dash is unambiguous when neither prefix contains a
dash. -/
theorem append_dash_inj :
    ∀ (t1 t2 s1 s2 : List Char), '-' ∉ t1 → '-' ∉ t2 →
      t1 ++ '-' :: s1 = t2 ++ '-' :: s2 → t1 = t2 ∧ s1 = s2 := by
  intro t1
  induction t1 with
  | nil =>
    intro t2 s1 s2 _ h2 h
    cases t2 with
    | nil => simpa using h
    | cons c ts =>
      rw [List.nil_append, List.cons_append] at h
      injection h with hc _
      subst hc
      exact absurd (List.mem_cons_self _ _) h2
  | cons c ts ih =>
    intro t2 s1 s2 h1 h2 h
    cases t2 with
    | nil =>
      rw [List.cons_append, List.nil_append] at h
      injection h with hc _
      subst hc
      exact absurd (List.mem_cons_self _ _) h1
    | cons c2 ts2 =>
      rw [List.cons_append, List.cons_append] at h
      injection h with hc htail
      subst hc
      have h1' : '-' ∉ ts := fun hm => h1 (List.mem_cons_of_mem _ hm)
      have h2' : '-' ∉ ts2 := fun hm => h2 (List.mem_cons_of_mem _ hm)
      obtain ⟨he, hs⟩ := ih ts2 s1 s2 h1' h2' htail
      exact ⟨by rw [he], hs⟩

/-! ### Claim C5 -/

/-- Unpacking `(String.mk l).data` gives `l`. -/
theorem data_mk (l : List Char) : (String.mk l).data = l := rfl

/-- The identifier as a character list: "PA-", the decimal time, a dash,
the random suffix. -/
theorem generateApplicationId_data (n : Nat) (r : String) :
    (generateApplicationId n r).data =
      'P' :: 'A' :: '-' :: ((Nat.repr n).data ++ '-' :: randomSuffix r) := by
  simp [generateApplicationId, String.data_append, data_mk,
    show "PA-".data = ['P', 'A', '-'] from rfl, show "-".data = ['-'] from rfl,
    List.append_assoc]

/-- A generated identifier is never the empty string. -/
theorem generateApplicationId_ne_empty (n : Nat) (r : String) :
    generateApplicationId n r ≠ "" := by
  intro h
  have hd := congrArg String.data h
  rw [generateApplicationId_data] at hd
  exact absurd hd (by simp)

/-- The fractional base-36 digit characters. -/
def base36FracDigits : List Char := "0123456789abcdefghijklmnopqrstuvwxyz".data

/-- The possible shapes of `Math.random().toString(36)` for a value in
`[0, 1)`: either exactly "0", or "0." followed by at least one fractional
base-36 digit. -/
def validRandomText (r : String) : Bool :=
  r == "0" ||
    (lstartsWith "0.".data r.data &&
      (r.data.drop 2).all (fun c => List.elem c base36FracDigits) &&
      !(r.data.drop 2).isEmpty)

/-- Uppercasing a base-36 digit yields an uppercase letter or a digit. -/
theorem base36_toUpper :
    ∀ a ∈ base36FracDigits, ((Char.toUpper a).isUpper || (Char.toUpper a).isDigit) = true := by
  decide

/-- C5 counterexample: `(0.5).toString(36)` is "0.i", a legitimate random
expansion, and the suffix it produces has length 1, not 9; so not every
generated identifier carries a 9-character suffix. -/
theorem generateApplicationId_short_suffix :
    validRandomText "0.i" = true ∧
    (randomSuffix "0.i").length ≠ 9 ∧
    generateApplicationId 5 "0.i" = "PA-5-I" := by
  decide

/-- C5 amended: every identifier is "PA-", the decimal clock value, "-",
and the uppercased first at-most-9 fractional base-36 digits of the
random value — uppercase alphanumeric, of length exactly 9 whenever the
expansion has at least 9 fractional digits but shorter otherwise; and two
identifiers coincide only when both the clock value and the suffix
coincide, so distinct clock values or distinct suffixes give distinct
identifiers. -/
theorem generateApplicationId_format :
    (∀ (now : Nat) (r : String), validRandomText r = true →
      generateApplicationId now r =
        "PA-" ++ Nat.repr now ++ "-" ++ String.mk (randomSuffix r) ∧
      (randomSuffix r).length ≤ 9 ∧
      (∀ c ∈ randomSuffix r, (c.isUpper || c.isDigit) = true) ∧
      (9 ≤ (r.data.drop 2).length → (randomSuffix r).length = 9)) ∧
    (∀ (n1 n2 : Nat) (r1 r2 : String),
      generateApplicationId n1 r1 = generateApplicationId n2 r2 →
      n1 = n2 ∧ randomSuffix r1 = randomSuffix r2) := by
  constructor
  · intro now r hr
    refine ⟨rfl, ?_, ?_, ?_⟩
    · simp only [randomSuffix, List.length_map, List.length_take]
      omega
    · intro c hc
      rw [randomSuffix, List.mem_map] at hc
      obtain ⟨a, ha, rfl⟩ := hc
      have hadrop : a ∈ r.data.drop 2 := List.take_subset 9 _ ha
      rw [validRandomText, Bool.or_eq_true, beq_iff_eq] at hr
      rcases hr with hr0 | hrfrac
      · subst hr0
        simp at hadrop
      · rw [Bool.and_eq_true, Bool.and_eq_true] at hrfrac
        have hall := hrfrac.1.2
        rw [List.all_eq_true] at hall
        have hmem : a ∈ base36FracDigits := List.elem_iff.mp (hall a hadrop)
        exact base36_toUpper a hmem
    · intro hlen
      simp only [randomSuffix, List.length_map, List.length_take]
      omega
  · intro n1 n2 r1 r2 h
    have hd := congrArg String.data h
    rw [generateApplicationId_data, generateApplicationId_data] at hd
    simp only [List.cons.injEq, true_and] at hd
    obtain ⟨hrepr, hsuf⟩ :=
      append_dash_inj _ _ _ _ (natRepr_no_dash n1) (natRepr_no_dash n2) hd
    exact ⟨natChars_inj n1 n2 (by rw [← natRepr_data, ← natRepr_data, hrepr]), hsuf⟩

/-- Witness for the amended C5: a 10-digit expansion gives a 9-character
suffix, and the format equation holds there. -/
theorem generateApplicationId_format_witness :
    generateApplicationId 1700001234567 "0.k3j9zq8abt" =
      "PA-" ++ Nat.repr 1700001234567 ++ "-" ++ String.mk (randomSuffix "0.k3j9zq8abt") ∧
    (randomSuffix "0.k3j9zq8abt").length = 9 := by
  have h := generateApplicationId_format.1 1700001234567 "0.k3j9zq8abt" (by decide)
  exact ⟨h.1, h.2.2.2 (by decide)⟩

/-! ### Claim C1 -/

/-- The submission key differs from the draft key (their first characters
differ). -/
theorem applicationKey_ne_draftKey (id : String) :
    ("application_" ++ id) ≠ draftKey := by
  intro h
  have hd : ("application_" ++ id).data = draftKey.data := congrArg String.data h
  rw [String.data_append] at hd
  have hcons : 'a' :: ("pplication_".data ++ id.data) = 'b' :: "uildingPermitDraft".data := hd
  injection hcons with hc _
  exact absurd hc (by decide)

/-- C1: submitting on step 4 with every field valid produces exactly one
submitted record with status "Submitted" and a non-empty identifier,
carrying the six form fields; it is persisted under
`"application_" + applicationId`, the draft slot is cleared (so a
subsequent load finds no draft), the fields reset to the defaults and the
step resets to 1. -/
theorem handleSubmit_step4_valid (d : Draft) (store : Store) (now : Nat)
    (randomText nowIso : String) (hv : validateAll d = true) :
    ∃ (app : SubmittedApplication) (store2 : Store),
      handleSubmit 4 d store now randomText nowIso = (some app, store2, defaultValues, 1) ∧
      app.status = "Submitted" ∧
      app.applicationId = generateApplicationId now randomText ∧
      app.applicationId ≠ "" ∧
      app.applicantName = d.applicantName ∧
      app.propertyAddress = d.propertyAddress ∧
      app.projectType = d.projectType ∧
      app.projectDescription = d.projectDescription ∧
      app.estimatedCost = d.estimatedCost ∧
      app.contractorLicense = d.contractorLicense ∧
      app.submittedAt = nowIso ∧
      getItem store2 ("application_" ++ app.applicationId) = some (encodeApplication app) ∧
      getItem store2 draftKey = none ∧
      loadDraft store2 = none := by
  have hcond : 4 = FORM_STEPS.length ∧ validateAll d = true := ⟨rfl, hv⟩
  refine ⟨(onSubmit d store now randomText nowIso).1,
    (onSubmit d store now randomText nowIso).2.1, ?_, rfl, rfl,
    generateApplicationId_ne_empty now randomText, rfl, rfl, rfl, rfl, rfl, rfl, rfl,
    ?_, ?_, ?_⟩
  · simp only [handleSubmit]
    rw [if_pos hcond]
    rfl
  · show getItem
      (removeItem
        (setItem store ("application_" ++ generateApplicationId now randomText)
          (encodeApplication (onSubmit d store now randomText nowIso).1))
        draftKey)
      ("application_" ++ generateApplicationId now randomText) =
      some (encodeApplication (onSubmit d store now randomText nowIso).1)
    rw [getItem_removeItem_ne _ _ _ (applicationKey_ne_draftKey _), getItem_setItem_self]
  · exact getItem_removeItem_self _ _
  · show loadDraft (onSubmit d store now randomText nowIso).2.1 = none
    have h9 : getItem (onSubmit d store now randomText nowIso).2.1 draftKey = none :=
      getItem_removeItem_self _ _
    simp only [loadDraft]
    rw [h9]

/-- Witness for C1 at the spec's §8.8 scenario. -/
theorem handleSubmit_step4_valid_witness :
    ∃ (app : SubmittedApplication) (store2 : Store),
      handleSubmit 4 scenarioDraft (saveDraft emptyStore scenarioDraft) 1700001234567
          "0.k3j9zq8abt" "2026-10-12T00:00:00.000Z" = (some app, store2, defaultValues, 1) ∧
      app.status = "Submitted" ∧
      app.applicationId = generateApplicationId 1700001234567 "0.k3j9zq8abt" ∧
      app.applicationId ≠ "" ∧
      app.applicantName = scenarioDraft.applicantName ∧
      app.propertyAddress = scenarioDraft.propertyAddress ∧
      app.projectType = scenarioDraft.projectType ∧
      app.projectDescription = scenarioDraft.projectDescription ∧
      app.estimatedCost = scenarioDraft.estimatedCost ∧
      app.contractorLicense = scenarioDraft.contractorLicense ∧
      app.submittedAt = "2026-10-12T00:00:00.000Z" ∧
      getItem store2 ("application_" ++ app.applicationId) = some (encodeApplication app) ∧
      getItem store2 draftKey = none ∧
      loadDraft store2 = none :=
  handleSubmit_step4_valid scenarioDraft (saveDraft emptyStore scenarioDraft)
    1700001234567 "0.k3j9zq8abt" "2026-10-12T00:00:00.000Z" (by decide)

end BuildingPermit
